import Mathlib

/-!
Verification development for the two enrichment scripts `ot_google.py` and
`ot_insta.py`.  Both scripts load a JSON record store (restaurant name →
record), filter to records whose `url` contains `'opentable'` and whose
target field (`lat` resp. `instagram`) is falsy, loop over the candidates
performing a network fetch per candidate, count hits and errors, print
progress lines, and persist once at the end.

The embedding below translates the scripts' data model and control flow
into Lean: Python dicts become insertion-ordered association lists, JSON
values become an inductive `Json` type (numbers as rationals, since the
scripts only copy numeric values and never compute with them), the network
fetch becomes an explicit `Except`-valued parameter, and each loop body
becomes a pure step function on an explicit state record.  The three
regular expressions of `ot_insta.py` are embedded directly as first-match
searchers with Python's leftmost-then-greedy backtracking semantics.
-/

namespace OTEnrich

/-- JSON values as loaded by `json.load` / produced by `json.loads`.
Numbers are modelled as rationals: the scripts copy numeric JSON payloads
verbatim and never perform arithmetic on them. -/
inductive Json where
  | null
  | bool (b : Bool)
  | num (q : Rat)
  | str (s : String)
  | arr (elems : List Json)
  | obj (fields : List (String × Json))

/-- Python truthiness (`bool(x)`) on JSON values: `None`, `False`, `0`,
`''`, `[]`, `{}` are falsy, everything else truthy. -/
def Json.truthy : Json → Bool
  | Json.null => false
  | Json.bool b => b
  | Json.num q => if q = 0 then false else true
  | Json.str s => !s.isEmpty
  | Json.arr xs => !xs.isEmpty
  | Json.obj kvs => !kvs.isEmpty

/-- A Python dict with string keys and JSON values, modelled as an
insertion-ordered association list (keys unique in any dict produced by
`json.load`). -/
abbrev Obj := List (String × Json)

/-- The record store: restaurant name → record, insertion-ordered. -/
abbrev Store := List (String × Obj)

/-- `d.get(k)`: first binding of `k`, or `None` when absent. -/
def Obj.get (o : Obj) (k : String) : Option Json :=
  match o with
  | [] => none
  | (k', v) :: rest => if k' = k then some v else Obj.get rest k

/-- `d.get(k, default)`. -/
def Obj.getD (o : Obj) (k : String) (dflt : Json) : Json :=
  match Obj.get o k with
  | some v => v
  | none => dflt

/-- `d[k] = v`: replace the value of an existing key in place (Python
dicts keep the key's position), or append a fresh binding at the end. -/
def Obj.set (o : Obj) (k : String) (v : Json) : Obj :=
  match o with
  | [] => [(k, v)]
  | (k', v') :: rest => if k' = k then (k, v) :: rest else (k', v') :: Obj.set rest k v

/-- `lookup[name]` as an optional value (`KeyError` ↦ `none`). -/
def storeGet (lk : Store) (name : String) : Option Obj :=
  match lk with
  | [] => none
  | (k, v) :: rest => if k = name then some v else storeGet rest name

/-- Mutating `lookup[name]` in place: replace the record bound to `name`,
leaving keys and their order untouched. -/
def storeSetEntry (lk : Store) (name : String) (e : Obj) : Store :=
  match lk with
  | [] => []
  | (k, v) :: rest =>
    if k = name then (k, e) :: storeSetEntry rest name e
    else (k, v) :: storeSetEntry rest name e

/-- `needle` is a leading segment of `hay` (character-exact). -/
def leadSeg : List Char → List Char → Bool
  | [], _ => true
  | _ :: _, [] => false
  | a :: as, b :: bs => a == b && leadSeg as bs

/-- Python's case-sensitive substring operator `needle in hay` on the
character lists. -/
def strContainsL (needle : List Char) : List Char → Bool
  | [] => leadSeg needle []
  | c :: rest => leadSeg needle (c :: rest) || strContainsL needle rest

/-- Python's `needle in hay` on strings. -/
def strContains (hay needle : String) : Bool :=
  strContainsL needle.toList hay.toList

/-- `v.get('url', '')`, which both scripts feed to the substring operator.
A present non-string `url` would raise `TypeError` at filter time in
Python (outside any `try`, aborting the run); the claims only concern
stores whose `url` fields are strings, and we map that corner to `""`. -/
def getUrl (v : Obj) : String :=
  match Obj.getD v "url" (Json.str "") with
  | Json.str s => s
  | _ => ""

/-- `v.get('slug', '')` (string case; non-string corner mapped to `""`). -/
def getSlug (v : Obj) : String :=
  match Obj.getD v "slug" (Json.str "") with
  | Json.str s => s
  | _ => ""

/-- `ot_google.py` filter predicate:
`'opentable' in v.get('url', '') and not v.get('lat')`. -/
def googlePred (v : Obj) : Bool :=
  strContains (getUrl v) "opentable" && !(Obj.getD v "lat" Json.null).truthy

/-- `ot_google.py` candidate set: names of records passing `googlePred`,
in store iteration order. -/
def otEntriesGoogle (lookup : Store) : List String :=
  (lookup.filter (fun p => googlePred p.2)).map Prod.fst

/-- An element of `ot_insta.py`'s candidate list:
`{'name': name, 'url': v['url'], 'slug': v.get('slug', '')}`. -/
structure IEntry where
  name : String
  url : String
  slug : String

/-- `ot_insta.py` filter predicate:
`'opentable' in v.get('url', '') and not v.get('instagram')`. -/
def instaPred (v : Obj) : Bool :=
  strContains (getUrl v) "opentable" && !(Obj.getD v "instagram" Json.null).truthy

/-- `ot_insta.py` candidate set, in store iteration order. -/
def otEntriesInsta (lookup : Store) : List IEntry :=
  (lookup.filter (fun p => instaPred p.2)).map
    (fun p => { name := p.1, url := getUrl p.2, slug := getSlug p.2 })

/-! ### The three Instagram regular expressions of `ot_insta.py`

`re.search(p, html, re.I)` scans start positions left to right and at the
first position where the pattern matches returns the (greedy, with
backtracking) capture of group 1.  The patterns are
  1. `instagram\.com/([A-Za-z0-9_.]+)`
  2. `"instagram"\s*:\s*"([^"]+)"`
  3. `@([A-Za-z0-9_.]+)\s*(?:on\s+)?instagram`
all compiled with `re.I`. -/

/-- Case-insensitive literal match at the head of `s`; returns the
remaining characters on success (ASCII case folding, which covers the
literals appearing in the three patterns). -/
def litMatchCI : List Char → List Char → Option (List Char)
  | [], s => some s
  | _ :: _, [] => none
  | a :: as, b :: bs => if a.toLower == b.toLower then litMatchCI as bs else none

/-- Membership in the character class `[A-Za-z0-9_.]`. -/
def isWordDot (c : Char) : Bool :=
  c.isAlpha || c.isDigit || c == '_' || c == '.'

/-- Pattern 1 anchored at the head of `s`: literal `instagram.com/` then a
maximal non-empty run from `[A-Za-z0-9_.]` (greedy `+` with nothing after
it, so no backtracking is possible). -/
def pat1At (s : List Char) : Option (List Char) :=
  match litMatchCI "instagram.com/".toList s with
  | none => none
  | some rest =>
    let cap := rest.takeWhile isWordDot
    if cap.isEmpty then none else some cap

/-- Pattern 2 anchored at the head of `s`.  `\s*` is followed by the
non-whitespace literals `:` and `"`, and the greedy `[^"]+` is followed by
`"`, so maximal-munch is exact and no backtracking arises. -/
def pat2At (s : List Char) : Option (List Char) :=
  match litMatchCI "\"instagram\"".toList s with
  | none => none
  | some r1 =>
    match r1.dropWhile Char.isWhitespace with
    | ':' :: r3 =>
      match r3.dropWhile Char.isWhitespace with
      | '"' :: r5 =>
        let cap := r5.takeWhile (fun c => !(c == '"'))
        if cap.isEmpty then none
        else
          match r5.drop cap.length with
          | '"' :: _ => some cap
          | _ => none
      | _ => none
    | _ => none

/-- The tail `\s*(?:on\s+)?instagram` of pattern 3, matched at the head of
`s`.  `\s*` and `\s+` are followed by non-whitespace literals, so their
greedy runs are exact; the optional group is tried first (greedy `?`) and
skipped on failure. -/
def pat3Tail (s : List Char) : Bool :=
  let r1 := s.dropWhile Char.isWhitespace
  match litMatchCI "on".toList r1 with
  | some r2 =>
    let r3 := r2.dropWhile Char.isWhitespace
    if r3.length < r2.length && (litMatchCI "instagram".toList r3).isSome then true
    else (litMatchCI "instagram".toList r1).isSome
  | none => (litMatchCI "instagram".toList r1).isSome

/-- Backtracking for pattern 3's greedy capture: try capture lengths from
`n` down to `1` (Python tries the longest capture first). `maxCap` is the
maximal `[A-Za-z0-9_.]` run after `@` and `rest` the characters after it. -/
def pat3TryLens (maxCap rest : List Char) : Nat → Option (List Char)
  | 0 => none
  | Nat.succ k =>
    if pat3Tail (maxCap.drop (k + 1) ++ rest) then some (maxCap.take (k + 1))
    else pat3TryLens maxCap rest k

/-- Pattern 3 anchored at the head of `s`: `@`, greedy non-empty capture
from `[A-Za-z0-9_.]` with backtracking, then `\s*(?:on\s+)?instagram`. -/
def pat3At (s : List Char) : Option (List Char) :=
  match s with
  | '@' :: rest =>
    let maxCap := rest.takeWhile isWordDot
    pat3TryLens maxCap (rest.drop maxCap.length) maxCap.length
  | _ => none

/-- `re.search`: try the anchored matcher at each start position from the
left; first success wins (the empty final position included). -/
def searchFirst (f : List Char → Option (List Char)) : List Char → Option (List Char)
  | [] => f []
  | c :: rest =>
    match f (c :: rest) with
    | some r => some r
    | none => searchFirst f rest

/-- `s.strip()`. -/
def stripWs (s : List Char) : List Char :=
  ((s.dropWhile Char.isWhitespace).reverse.dropWhile Char.isWhitespace).reverse

/-- `s.rstrip('/')`. -/
def rstripSlash (s : List Char) : List Char :=
  (s.reverse.dropWhile (fun c => c == '/')).reverse

/-- The blocklist `['p', 'reel', 'explore', 'accounts', 'stories']` of
reserved path segments. -/
def BLOCKLIST : List String := ["p", "reel", "explore", "accounts", "stories"]

/-- `m.group(1).strip().rstrip('/')`. -/
def cleanIg (cap : List Char) : String :=
  String.mk (rstripSlash (stripWs cap))

/-- The acceptance test `if ig and ig not in [...]` applied to a raw
capture: the cleaned value when non-empty and not blocklisted (note the
membership test is case-sensitive), else `none`. -/
def acceptIg (cap : List Char) : Option String :=
  let ig := cleanIg cap
  if ig ≠ "" ∧ ig ∉ BLOCKLIST then some ig else none

/-- First-occurrence searcher for pattern 1. -/
def igSearch1 (html : List Char) : Option (List Char) := searchFirst pat1At html

/-- First-occurrence searcher for pattern 2. -/
def igSearch2 (html : List Char) : Option (List Char) := searchFirst pat2At html

/-- First-occurrence searcher for pattern 3. -/
def igSearch3 (html : List Char) : Option (List Char) := searchFirst pat3At html

/-- The ordered pattern list of `ot_insta.py`. -/
def igPatterns : List (List Char → Option (List Char)) :=
  [igSearch1, igSearch2, igSearch3]

/-- The `for p in patterns` loop: first pattern whose first match has an
accepted capture wins; a matched-but-rejected capture resets `ig` to `''`
and the loop moves to the next pattern; `''` when no pattern is accepted. -/
def extractLoop : List (List Char → Option (List Char)) → List Char → String
  | [], _ => ""
  | p :: ps, html =>
    match p html with
    | none => extractLoop ps html
    | some cap =>
      match acceptIg cap with
      | some s => s
      | none => extractLoop ps html

/-- The whole extraction of `ot_insta.py` (lines 28–40): the Instagram
handle found in the page body, or `''` for no hit. -/
def extract_ig (html : String) : String :=
  extractLoop igPatterns html.toList

/-! ### The per-candidate loop of `ot_google.py`

The network fetch (`urllib.request.urlopen` + `json.loads`) is abstracted
as a parameter `fetch : String → Except String Json`: a successful fetch
yields the decoded response body, any raised exception the message
carried to the `except` branch. -/

/-- `j.get(k, dflt)` as executed inside the `try`: `AttributeError` when
`j` is not a dict. -/
def pyGetD (j : Json) (k : String) (dflt : Json) : Except String Json :=
  match j with
  | Json.obj kvs => Except.ok (Obj.getD kvs k dflt)
  | _ => Except.error "AttributeError"

/-- Outcome of `if d.get('candidates') and len(d['candidates']) > 0:`. -/
inductive RespClass where
  | hit (c : Json)
  | nohit
  | exn

/-- Classifies a decoded response `d`.  A non-dict `d` raises
`AttributeError` at `d.get`; a falsy `candidates` value (absent, `None`,
`[]`, `''`, `0`, `{}`, `false`) takes the else branch; a non-empty array
selects its first element; a truthy non-array value raises inside the
`try` (`len` on a number raises `TypeError`; indexing a string yields a
1-char string whose `.get` raises `AttributeError`; `[0]` on a JSON
object raises `KeyError`). -/
def classify : Json → RespClass
  | Json.obj kvs =>
    match Obj.get kvs "candidates" with
    | some (Json.arr (c :: _)) => RespClass.hit c
    | some j => if j.truthy then RespClass.exn else RespClass.nohit
    | none => RespClass.nohit
  | _ => RespClass.exn

/-- The five values read from the first candidate `c`:
`loc = c.get('geometry', {}).get('location', {})`, then `loc.get('lat')`,
`loc.get('lng')`, `c.get('rating')`, `c.get('user_ratings_total')`,
`c.get('place_id')`.  Any `.get` on a non-dict raises before the first
record mutation, so failure yields no partial update. -/
def candFields (c : Json) : Except String (Json × Json × Json × Json × Json) :=
  match pyGetD c "geometry" (Json.obj []) with
  | Except.error m => Except.error m
  | Except.ok geom =>
    match pyGetD geom "location" (Json.obj []) with
    | Except.error m => Except.error m
    | Except.ok loc =>
      match pyGetD loc "lat" Json.null with
      | Except.error m => Except.error m
      | Except.ok latv =>
        match pyGetD loc "lng" Json.null with
        | Except.error m => Except.error m
        | Except.ok lngv =>
          match pyGetD c "rating" Json.null with
          | Except.error m => Except.error m
          | Except.ok ratv =>
            match pyGetD c "user_ratings_total" Json.null with
            | Except.error m => Except.error m
            | Except.ok revv =>
              match pyGetD c "place_id" Json.null with
              | Except.error m => Except.error m
              | Except.ok pidv => Except.ok (latv, lngv, ratv, revv, pidv)

/-- The five assignments `entry['lat'] = ...` … `entry['place_id'] = ...`
of the hit branch, in source order. -/
def setFive (entry : Obj) (f : Json × Json × Json × Json × Json) : Obj :=
  Obj.set (Obj.set (Obj.set (Obj.set (Obj.set entry "lat" f.1) "lng" f.2.1)
    "google_rating" f.2.2.1) "google_reviews" f.2.2.2.1) "place_id" f.2.2.2.2

/-- Processing of a decoded response for candidate `name`:
`Except.ok none` is a no-hit, `Except.ok (some lk)` a hit with the updated
store, `Except.error` an exception reaching the `except` branch
(`KeyError` would arise from `lookup[name]` on an absent key). -/
def processResp (lookup : Store) (name : String) (d : Json) : Except String (Option Store) :=
  match classify d with
  | RespClass.exn => Except.error "TypeError"
  | RespClass.nohit => Except.ok none
  | RespClass.hit c =>
    match storeGet lookup name with
    | none => Except.error "KeyError"
    | some entry =>
      match candFields c with
      | Except.error m => Except.error m
      | Except.ok fl => Except.ok (some (storeSetEntry lookup name (setFive entry fl)))

/-- Run state of `ot_google.py`: the in-memory store, the two counters and
the printed lines, in order. -/
structure GState where
  lookup : Store
  hits : Nat
  errors : Nat
  out : List String

/-- `f'[{i+1}/{total}] {hits} found, {errors} errors'`. -/
def googleProgLine (ip1 total h e : Nat) : String :=
  "[" ++ toString ip1 ++ "/" ++ toString total ++ "] " ++ toString h ++
    " found, " ++ toString e ++ " errors"

/-- The `(i+1) % 50 == 0` progress print of `ot_google.py`; the `except`
branch appends ` - {e}` with the exception message. -/
def progIfG (ip1 total h e : Nat) (msg : Option String) : List String :=
  if ip1 % 50 = 0 then
    [googleProgLine ip1 total h e ++ (match msg with | some m => " - " ++ m | none => "")]
  else []

/-- The combined outcome of fetch + response processing for one
candidate: a fetch exception short-circuits, otherwise the decoded
response is processed. -/
def googleOutcome (lookup : Store) (name : String) (res : Except String Json) :
    Except String (Option Store) :=
  match res with
  | Except.error m => Except.error m
  | Except.ok d => processResp lookup name d

/-- One iteration of the `ot_google.py` loop body for candidate `name` at
0-based index `i`, given the fetch outcome `res`. -/
def googleStep (total i : Nat) (st : GState) (name : String)
    (res : Except String Json) : GState :=
  match googleOutcome st.lookup name res with
  | Except.error m =>
      { st with errors := st.errors + 1,
                out := st.out ++ progIfG (i + 1) total st.hits (st.errors + 1) (some m) }
  | Except.ok none =>
      { st with out := st.out ++ progIfG (i + 1) total st.hits st.errors none }
  | Except.ok (some lk) =>
      { lookup := lk, hits := st.hits + 1, errors := st.errors,
        out := st.out ++ progIfG (i + 1) total (st.hits + 1) st.errors none }

/-- `for i, name in enumerate(ot_entries)` for `ot_google.py`. -/
def runG (fetch : String → Except String Json) (total : Nat) :
    Nat → GState → List String → GState
  | _, st, [] => st
  | i, st, name :: rest =>
      runG fetch total (i + 1) (googleStep total i st name (fetch name)) rest

/-- Initial run state of `ot_google.py`. -/
def initG (lookup0 : Store) : GState :=
  { lookup := lookup0, hits := 0, errors := 0, out := [] }

/-- The whole `ot_google.py` run (after the fatal-load step), for a given
fetch function. -/
def googleRun (fetch : String → Except String Json) (lookup0 : Store) : GState :=
  runG fetch (otEntriesGoogle lookup0).length 0 (initG lookup0) (otEntriesGoogle lookup0)

/-! ### The per-candidate loop of `ot_insta.py` -/

/-- `r['slug'] or r['url'].split('/')[-1]` (computed before the `try`). -/
def slugOf (r : IEntry) : String :=
  if r.slug = "" then (r.url.splitOn "/").getLastD "" else r.slug

/-- The page URL `f"https://www.opentable.com/r/{slug}"`. -/
def instaFetchUrl (r : IEntry) : String :=
  "https://www.opentable.com/r/" ++ slugOf r

/-- Run state of `ot_insta.py`: `hits` is the accumulated results list of
`(name, instagram)` pairs, in append order. -/
structure IState where
  hits : List (String × String)
  errors : Nat
  out : List String

/-- `f'[{i+1}/{total}] IG: {name} -> @{ig}'`. -/
def igLine (ip1 total : Nat) (name ig : String) : String :=
  "[" ++ toString ip1 ++ "/" ++ toString total ++ "] IG: " ++ name ++ " -> @" ++ ig

/-- `f'[{i+1}/{total}] ... {h} found so far'`. -/
def instaSoFarLine (ip1 total h : Nat) : String :=
  "[" ++ toString ip1 ++ "/" ++ toString total ++ "] ... " ++ toString h ++ " found so far"

/-- `f'[{i+1}/{total}] ... {h} found, {e} errors'`. -/
def instaErrLine (ip1 total h e : Nat) : String :=
  "[" ++ toString ip1 ++ "/" ++ toString total ++ "] ... " ++ toString h ++
    " found, " ++ toString e ++ " errors"

/-- One iteration of the `ot_insta.py` loop body for candidate `r` at
0-based index `i`; `res` is the fetched-and-decoded page body or the
exception message (the `.decode('utf-8', errors='ignore')` step cannot
raise). -/
def instaStep (total i : Nat) (st : IState) (r : IEntry)
    (res : Except String String) : IState :=
  match res with
  | Except.error _ =>
      { st with errors := st.errors + 1,
                out := st.out ++ (if (i + 1) % 100 = 0 then
                  [instaErrLine (i + 1) total st.hits.length (st.errors + 1)] else []) }
  | Except.ok html =>
      let ig := extract_ig html
      if ig = "" then
        { st with out := st.out ++ (if (i + 1) % 100 = 0 then
            [instaSoFarLine (i + 1) total st.hits.length] else []) }
      else
        { st with hits := st.hits ++ [(r.name, ig)],
                  out := st.out ++ [igLine (i + 1) total r.name ig] }

/-- `for i, r in enumerate(ot_entries)` for `ot_insta.py`. -/
def runI (fetch : IEntry → Except String String) (total : Nat) :
    Nat → IState → List IEntry → IState
  | _, st, [] => st
  | i, st, r :: rest =>
      runI fetch total (i + 1) (instaStep total i st r (fetch r)) rest

/-- Initial run state of `ot_insta.py`. -/
def initI : IState := { hits := [], errors := 0, out := [] }

/-- The whole `ot_insta.py` run (after the fatal-load step), for a given
fetch function. -/
def instaRun (fetch : IEntry → Except String String) (lookup0 : Store) : IState :=
  runI fetch (otEntriesInsta lookup0).length 0 initI (otEntriesInsta lookup0)

/-! ### End-of-run persistence -/

/-- A `json.dump(..., open(path, 'w'), indent=n)` call at job end: either
the full record store or the results list. -/
inductive FileWrite where
  | storeDump (path : String) (store : Store) (indent : Nat)
  | listDump (path : String) (results : List (String × String)) (indent : Nat)

/-- The target path of a write. -/
def FileWrite.path : FileWrite → String
  | FileWrite.storeDump p _ _ => p
  | FileWrite.listDump p _ _ => p

/-- The input (and output) path of `ot_google.py`: `'bfull.json'`. -/
def googleStorePath : String := "bfull.json"

/-- The input path of `ot_insta.py`: `'booking_lookup_full.json'`. -/
def instaStorePath : String := "booking_lookup_full.json"

/-- The output path of `ot_insta.py`: `'ot-instagram-results.json'`. -/
def instaResultsPath : String := "ot-instagram-results.json"

/-- Every file write performed by an `ot_google.py` run: one dump of the
full mutated store back onto `'bfull.json'`, `indent=2`. -/
def googleJobWrites (fetch : String → Except String Json) (lookup0 : Store) :
    List FileWrite :=
  [FileWrite.storeDump googleStorePath (googleRun fetch lookup0).lookup 2]

/-- Every file write performed by an `ot_insta.py` run: one dump of the
results list onto `'ot-instagram-results.json'`, `indent=2`. -/
def instaJobWrites (fetch : IEntry → Except String String) (lookup0 : Store) :
    List FileWrite :=
  [FileWrite.listDump instaResultsPath (instaRun fetch lookup0).hits 2]

/-! ### Basic lemmas about the dict operations -/

theorem Obj.get_set_same (o : Obj) (k : String) (v : Json) :
    Obj.get (Obj.set o k v) k = some v := by
  induction o with
  | nil => simp [Obj.set, Obj.get]
  | cons p rest ih =>
    obtain ⟨a, b⟩ := p
    by_cases h : a = k
    · simp [Obj.set, Obj.get, h]
    · simp [Obj.set, Obj.get, h, ih]

theorem Obj.get_set_other (o : Obj) (k k' : String) (v : Json) (h : k' ≠ k) :
    Obj.get (Obj.set o k v) k' = Obj.get o k' := by
  have hk : ¬k = k' := fun he => h he.symm
  induction o with
  | nil => simp [Obj.set, Obj.get, hk]
  | cons p rest ih =>
    obtain ⟨a, b⟩ := p
    by_cases ha : a = k
    · subst ha
      simp [Obj.set, Obj.get, hk]
    · simp [Obj.set, Obj.get, ha, ih]

theorem storeGet_setEntry_same (lk : Store) (name : String) (e v : Obj)
    (h : storeGet lk name = some v) :
    storeGet (storeSetEntry lk name e) name = some e := by
  induction lk with
  | nil => simp [storeGet] at h
  | cons p rest ih =>
    obtain ⟨a, b⟩ := p
    by_cases ha : a = name
    · simp [storeSetEntry, storeGet, ha]
    · simp only [storeGet, if_neg ha] at h
      simp [storeSetEntry, storeGet, ha, ih h]

theorem storeGet_setEntry_other (lk : Store) (name other : String) (e : Obj)
    (h : other ≠ name) :
    storeGet (storeSetEntry lk name e) other = storeGet lk other := by
  have hn : ¬name = other := fun he => h he.symm
  induction lk with
  | nil => simp [storeSetEntry]
  | cons p rest ih =>
    obtain ⟨a, b⟩ := p
    by_cases ha : a = name
    · subst ha
      simp [storeSetEntry, storeGet, hn, ih]
    · simp [storeSetEntry, storeGet, ha, ih]

theorem storeSetEntry_keys (lk : Store) (name : String) (e : Obj) :
    (storeSetEntry lk name e).map Prod.fst = lk.map Prod.fst := by
  induction lk with
  | nil => rfl
  | cons p rest ih =>
    obtain ⟨a, b⟩ := p
    by_cases ha : a = name <;> simp [storeSetEntry, ha, ih]

theorem storeGet_mem (lk : Store) (k : String) (v : Obj)
    (h : storeGet lk k = some v) : (k, v) ∈ lk := by
  induction lk with
  | nil => simp [storeGet] at h
  | cons p rest ih =>
    obtain ⟨a, b⟩ := p
    by_cases ha : a = k
    · subst ha
      have hb : storeGet ((a, b) :: rest) a = some b := by simp [storeGet]
      rw [hb] at h
      cases h
      exact List.mem_cons_self _ _
    · simp only [storeGet, if_neg ha] at h
      exact List.mem_cons_of_mem _ (ih h)

theorem mem_storeGet (lk : Store) (k : String) (v : Obj)
    (hnd : (lk.map Prod.fst).Nodup) (h : (k, v) ∈ lk) :
    storeGet lk k = some v := by
  induction lk with
  | nil => simp at h
  | cons p rest ih =>
    obtain ⟨a, b⟩ := p
    simp only [List.map_cons, List.nodup_cons] at hnd
    rcases List.mem_cons.1 h with h1 | h1
    · rw [Prod.mk.injEq] at h1
      simp [storeGet, h1.1.symm, h1.2]
    · have hak : a ≠ k := by
        intro he
        exact hnd.1 (he ▸ (List.mem_map.2 ⟨(k, v), h1, rfl⟩))
      simp [storeGet, hak, ih hnd.2 h1]

theorem storeGet_of_mem_keys (lk : Store) (k : String)
    (h : k ∈ lk.map Prod.fst) : ∃ v, storeGet lk k = some v := by
  induction lk with
  | nil => simp at h
  | cons p rest ih =>
    obtain ⟨a, b⟩ := p
    by_cases ha : a = k
    · exact ⟨b, by simp [storeGet, ha]⟩
    · simp only [List.map_cons, List.mem_cons] at h
      rcases h with h | h
      · exact absurd h.symm ha
      · obtain ⟨v, hv⟩ := ih h
        exact ⟨v, by simp [storeGet, ha, hv]⟩

theorem keys_nodup_eq {lk : Store} (hnd : (lk.map Prod.fst).Nodup) {k : String}
    {v w : Obj} (hv : (k, v) ∈ lk) (hw : (k, w) ∈ lk) : v = w := by
  have h1 := mem_storeGet lk k v hnd hv
  have h2 := mem_storeGet lk k w hnd hw
  rw [h1] at h2
  exact Option.some.inj h2

/-- Membership in the keys of a filtered store, for stores with unique
keys (as any store loaded from JSON has). -/
theorem mem_filtered_keys (p : Obj → Bool) (lookup : Store)
    (hnd : (lookup.map Prod.fst).Nodup) (name : String) (v : Obj)
    (hmem : (name, v) ∈ lookup) :
    (name ∈ (lookup.filter (fun q => p q.2)).map Prod.fst ↔ p v = true) := by
  constructor
  · intro h
    obtain ⟨q, hq, hq1⟩ := List.mem_map.1 h
    obtain ⟨hqmem, hqp⟩ := List.mem_filter.1 hq
    have hqv : q.2 = v := by
      have : (name, q.2) ∈ lookup := by
        have : (q.1, q.2) ∈ lookup := by simpa using hqmem
        rwa [hq1] at this
      exact keys_nodup_eq hnd this hmem
    rwa [hqv] at hqp
  · intro hp
    exact List.mem_map.2 ⟨(name, v), List.mem_filter.2 ⟨hmem, hp⟩, rfl⟩

theorem otEntriesInsta_names (lookup : Store) :
    (otEntriesInsta lookup).map IEntry.name
      = (lookup.filter (fun q => instaPred q.2)).map Prod.fst := by
  simp [otEntriesInsta, List.map_map, Function.comp]

/-- C1: a record's key is in the candidate set iff `'opentable'` occurs in
its `url` and the target field (`lat` for the API variant, `instagram` for
the scrape variant) is absent or falsy; the candidate set preserves store
iteration order, and a record with a truthy target field is never
selected. -/
theorem C1_filter_correctness (lookup : Store)
    (hnd : (lookup.map Prod.fst).Nodup) (name : String) (v : Obj)
    (hmem : (name, v) ∈ lookup) :
    (name ∈ otEntriesGoogle lookup ↔
      strContains (getUrl v) "opentable" = true ∧
        (Obj.getD v "lat" Json.null).truthy = false)
  ∧ (name ∈ (otEntriesInsta lookup).map IEntry.name ↔
      strContains (getUrl v) "opentable" = true ∧
        (Obj.getD v "instagram" Json.null).truthy = false)
  ∧ List.Sublist (otEntriesGoogle lookup) (lookup.map Prod.fst)
  ∧ List.Sublist ((otEntriesInsta lookup).map IEntry.name) (lookup.map Prod.fst)
  ∧ ((Obj.getD v "lat" Json.null).truthy = true → name ∉ otEntriesGoogle lookup)
  ∧ ((Obj.getD v "instagram" Json.null).truthy = true →
      name ∉ (otEntriesInsta lookup).map IEntry.name) := by
  have hg := mem_filtered_keys googlePred lookup hnd name v hmem
  have hi := mem_filtered_keys instaPred lookup hnd name v hmem
  have hgdec : (googlePred v = true) ↔
      (strContains (getUrl v) "opentable" = true ∧
        (Obj.getD v "lat" Json.null).truthy = false) := by
    simp [googlePred, Bool.and_eq_true, Bool.not_eq_true']
  have hidec : (instaPred v = true) ↔
      (strContains (getUrl v) "opentable" = true ∧
        (Obj.getD v "instagram" Json.null).truthy = false) := by
    simp [instaPred, Bool.and_eq_true, Bool.not_eq_true']
  refine ⟨?_, ?_, ?_, ?_, ?_, ?_⟩
  · exact hg.trans hgdec
  · rw [otEntriesInsta_names]
    exact hi.trans hidec
  · exact (List.filter_sublist lookup).map Prod.fst
  · rw [otEntriesInsta_names]
    exact (List.filter_sublist lookup).map Prod.fst
  · intro ht hin
    have := (hg.trans hgdec).mp hin
    rw [this.2] at ht
    simp at ht
  · intro ht hin
    rw [otEntriesInsta_names] at hin
    have := (hi.trans hidec).mp hin
    rw [this.2] at ht
    simp at ht

/-- A three-record store exercising both sides of the filter. -/
def c1Store : Store :=
  [("A", [("url", Json.str "https://www.opentable.com/a")]),
   ("B", [("url", Json.str "https://www.opentable.com/b"), ("lat", Json.num 1),
          ("instagram", Json.str "bgram")]),
   ("C", [("url", Json.str "https://resy.com/c")])]

/-- Witness for C1 at a concrete three-record store. -/
theorem C1_filter_correctness_witness :
    "A" ∈ otEntriesGoogle c1Store ∧ "B" ∉ otEntriesGoogle c1Store ∧
      "B" ∉ (otEntriesInsta c1Store).map IEntry.name := by
  have hA := C1_filter_correctness c1Store (by decide) "A"
    [("url", Json.str "https://www.opentable.com/a")] (by simp [c1Store])
  have hB := C1_filter_correctness c1Store (by decide) "B"
    [("url", Json.str "https://www.opentable.com/b"), ("lat", Json.num 1),
     ("instagram", Json.str "bgram")] (by simp [c1Store])
  exact ⟨hA.1.mpr (by decide), hB.2.2.2.2.1 (by decide),
         hB.2.2.2.2.2 (by decide)⟩

/-! ### The extraction loop of `ot_insta.py` -/

theorem acceptIg_spec (cap : List Char) (s : String) (h : acceptIg cap = some s) :
    s ≠ "" ∧ s ∉ BLOCKLIST ∧ s = cleanIg cap := by
  by_cases hc : (cleanIg cap ≠ "" ∧ cleanIg cap ∉ BLOCKLIST)
  · simp only [acceptIg, if_pos hc] at h
    cases h
    exact ⟨hc.1, hc.2, rfl⟩
  · simp only [acceptIg, if_neg hc] at h
    cases h

theorem extractLoop_eq_empty_iff
    (pats : List (List Char → Option (List Char))) (html : List Char) :
    extractLoop pats html = "" ↔ ∀ p ∈ pats, (p html).bind acceptIg = none := by
  induction pats with
  | nil => simp [extractLoop]
  | cons p ps ih =>
    cases hp : p html with
    | none => simp [extractLoop, hp, ih]
    | some cap =>
      cases hc : acceptIg cap with
      | none => simp [extractLoop, hp, hc, ih]
      | some s =>
        simp only [extractLoop, hp, hc, List.forall_mem_cons, Option.some_bind]
        constructor
        · intro he
          exact absurd he (acceptIg_spec cap s hc).1
        · intro hall
          cases hall.1

theorem extractLoop_cons_accepted (p : List Char → Option (List Char))
    (ps : List (List Char → Option (List Char))) (html : List Char) (s : String)
    (h : (p html).bind acceptIg = some s) :
    extractLoop (p :: ps) html = s := by
  cases hp : p html with
  | none => rw [hp] at h; cases h
  | some cap =>
    rw [hp, Option.some_bind] at h
    simp [extractLoop, hp, h]

theorem extractLoop_cons_rejected (p : List Char → Option (List Char))
    (ps : List (List Char → Option (List Char))) (html : List Char)
    (h : (p html).bind acceptIg = none) :
    extractLoop (p :: ps) html = extractLoop ps html := by
  cases hp : p html with
  | none => simp [extractLoop, hp]
  | some cap =>
    rw [hp, Option.some_bind] at h
    simp [extractLoop, hp, h]

/-- A page body whose textually first pattern occurrence captures the
blocklisted `explore` while a later `"instagram":"..."` construct holds
the real handle. -/
def demoPage : String :=
  "see instagram.com/explore and \"instagram\":\"lebernardin\" here"

/-- C2: the extraction tries the patterns in order, moving to the next
pattern when a matched capture is rejected (empty or blocklisted),
returns the first accepted capture in pattern order — not the first
textual occurrence — and yields no hit exactly when no pattern's first
match is accepted.  On `demoPage` the textually first capture is the
blocklisted `explore`, yet extraction returns `lebernardin`. -/
theorem C2_pattern_precedence :
    (∀ (pats : List (List Char → Option (List Char))) (html : List Char),
        extractLoop pats html = "" ↔ ∀ p ∈ pats, (p html).bind acceptIg = none)
  ∧ (∀ (p : List Char → Option (List Char))
        (ps : List (List Char → Option (List Char))) (html : List Char) (s : String),
        (p html).bind acceptIg = some s → extractLoop (p :: ps) html = s)
  ∧ (∀ (p : List Char → Option (List Char))
        (ps : List (List Char → Option (List Char))) (html : List Char),
        (p html).bind acceptIg = none → extractLoop (p :: ps) html = extractLoop ps html)
  ∧ igSearch1 demoPage.toList = some "explore".toList
  ∧ cleanIg "explore".toList ∈ BLOCKLIST
  ∧ extract_ig demoPage = "lebernardin" :=
  ⟨extractLoop_eq_empty_iff, extractLoop_cons_accepted, extractLoop_cons_rejected,
   by decide, by decide, by decide⟩

/-- Witness for C2: the accepted-capture rule applied at `demoPage` to the
second pattern, the first one having been rejected. -/
theorem C2_pattern_precedence_witness :
    extractLoop [igSearch2, igSearch3] demoPage.toList = "lebernardin" :=
  C2_pattern_precedence.2.1 igSearch2 [igSearch3] demoPage.toList "lebernardin" (by decide)

/-- C9: regex matching is case-insensitive (`re.I`) but the blocklist
membership test is case-sensitive, so the capitalized reserved segment
`Explore` is accepted as a handle although its lowercase form is
blocklisted. -/
theorem C9_blocklist_case_sensitivity :
    extract_ig "instagram.com/Explore" = "Explore"
  ∧ "Explore" ∉ BLOCKLIST
  ∧ "explore" ∈ BLOCKLIST
  ∧ String.mk ("Explore".toList.map Char.toLower) = "explore"
  ∧ extract_ig "INSTAGRAM.COM/vexedkitchen" = "vexedkitchen" :=
  ⟨by decide, by decide, by decide, by decide, by decide⟩

/-! ### The hit branch and the exception branch of `ot_google.py` -/

theorem setFive_get_lat (entry : Obj) (fl : Json × Json × Json × Json × Json) :
    Obj.get (setFive entry fl) "lat" = some fl.1 := by
  unfold setFive
  rw [Obj.get_set_other _ _ _ _ (by decide), Obj.get_set_other _ _ _ _ (by decide),
      Obj.get_set_other _ _ _ _ (by decide), Obj.get_set_other _ _ _ _ (by decide),
      Obj.get_set_same]

theorem setFive_get_lng (entry : Obj) (fl : Json × Json × Json × Json × Json) :
    Obj.get (setFive entry fl) "lng" = some fl.2.1 := by
  unfold setFive
  rw [Obj.get_set_other _ _ _ _ (by decide), Obj.get_set_other _ _ _ _ (by decide),
      Obj.get_set_other _ _ _ _ (by decide), Obj.get_set_same]

theorem setFive_get_rating (entry : Obj) (fl : Json × Json × Json × Json × Json) :
    Obj.get (setFive entry fl) "google_rating" = some fl.2.2.1 := by
  unfold setFive
  rw [Obj.get_set_other _ _ _ _ (by decide), Obj.get_set_other _ _ _ _ (by decide),
      Obj.get_set_same]

theorem setFive_get_reviews (entry : Obj) (fl : Json × Json × Json × Json × Json) :
    Obj.get (setFive entry fl) "google_reviews" = some fl.2.2.2.1 := by
  unfold setFive
  rw [Obj.get_set_other _ _ _ _ (by decide), Obj.get_set_same]

theorem setFive_get_place_id (entry : Obj) (fl : Json × Json × Json × Json × Json) :
    Obj.get (setFive entry fl) "place_id" = some fl.2.2.2.2 := by
  unfold setFive
  rw [Obj.get_set_same]

theorem setFive_get_other (entry : Obj) (fl : Json × Json × Json × Json × Json)
    (k : String) (h1 : k ≠ "lat") (h2 : k ≠ "lng") (h3 : k ≠ "google_rating")
    (h4 : k ≠ "google_reviews") (h5 : k ≠ "place_id") :
    Obj.get (setFive entry fl) k = Obj.get entry k := by
  unfold setFive
  rw [Obj.get_set_other _ _ _ _ h5, Obj.get_set_other _ _ _ _ h4,
      Obj.get_set_other _ _ _ _ h3, Obj.get_set_other _ _ _ _ h2,
      Obj.get_set_other _ _ _ _ h1]

theorem googleOutcome_hit (lookup : Store) (name : String) (d c : Json) (entry : Obj)
    (fl : Json × Json × Json × Json × Json) (hcl : classify d = RespClass.hit c)
    (hsg : storeGet lookup name = some entry) (hcf : candFields c = Except.ok fl) :
    googleOutcome lookup name (Except.ok d)
      = Except.ok (some (storeSetEntry lookup name (setFive entry fl))) := by
  simp [googleOutcome, processResp, hcl, hsg, hcf]

theorem googleOutcome_nohit (lookup : Store) (name : String) (d : Json)
    (hcl : classify d = RespClass.nohit) :
    googleOutcome lookup name (Except.ok d) = Except.ok none := by
  simp [googleOutcome, processResp, hcl]

theorem googleStep_of_error (total i : Nat) (st : GState) (name : String)
    (res : Except String Json) (m : String)
    (h : googleOutcome st.lookup name res = Except.error m) :
    googleStep total i st name res
      = { st with errors := st.errors + 1,
                  out := st.out ++ progIfG (i + 1) total st.hits (st.errors + 1) (some m) } := by
  simp [googleStep, h]

theorem googleStep_of_nohit (total i : Nat) (st : GState) (name : String)
    (res : Except String Json)
    (h : googleOutcome st.lookup name res = Except.ok none) :
    googleStep total i st name res
      = { st with out := st.out ++ progIfG (i + 1) total st.hits st.errors none } := by
  simp [googleStep, h]

theorem googleStep_of_hit (total i : Nat) (st : GState) (name : String)
    (res : Except String Json) (lk : Store)
    (h : googleOutcome st.lookup name res = Except.ok (some lk)) :
    googleStep total i st name res
      = { lookup := lk, hits := st.hits + 1, errors := st.errors,
          out := st.out ++ progIfG (i + 1) total (st.hits + 1) st.errors none } := by
  simp [googleStep, h]

/-- The record store of the spec's Carbone scenario. -/
def carboneStore : Store :=
  [("Carbone", [("url", Json.str "https://opentable.com/carbone")])]

/-- The stubbed response of the spec's Carbone scenario: one candidate
with lat 40.7, lng -74.0, rating 4.8, 500 reviews, place_id "abc123". -/
def carboneResp : Json :=
  Json.obj [("candidates", Json.arr [Json.obj
    [("geometry", Json.obj [("location",
        Json.obj [("lat", Json.num (mkRat 407 10)), ("lng", Json.num (mkRat (-740) 10))])]),
     ("rating", Json.num (mkRat 24 5)), ("user_ratings_total", Json.num 500),
     ("place_id", Json.str "abc123")]])]

/-- C3: a response whose `candidates` array is non-empty selects its first
element; on such a hit exactly the five fields `lat`, `lng`,
`google_rating`, `google_reviews`, `place_id` are written onto the
candidate's record (all other keys and all other records untouched), the
hit counter increments, the error counter does not; an empty-candidates
response is a no-hit leaving counters and store unchanged.  On the Carbone
scenario the output record gains exactly the five stubbed values with one
hit and zero errors. -/
theorem C3_hit_branch :
    (∀ (kvs : List (String × Json)) (c : Json) (cs : List Json),
        Obj.get kvs "candidates" = some (Json.arr (c :: cs)) →
        classify (Json.obj kvs) = RespClass.hit c)
  ∧ (∀ (total i : Nat) (st : GState) (name : String) (d c : Json) (entry : Obj)
        (fl : Json × Json × Json × Json × Json),
        classify d = RespClass.hit c →
        storeGet st.lookup name = some entry →
        candFields c = Except.ok fl →
        (googleStep total i st name (Except.ok d)).hits = st.hits + 1 ∧
        (googleStep total i st name (Except.ok d)).errors = st.errors ∧
        storeGet (googleStep total i st name (Except.ok d)).lookup name
          = some (setFive entry fl) ∧
        (∀ other, other ≠ name →
          storeGet (googleStep total i st name (Except.ok d)).lookup other
            = storeGet st.lookup other))
  ∧ (∀ (entry : Obj) (fl : Json × Json × Json × Json × Json),
        Obj.get (setFive entry fl) "lat" = some fl.1 ∧
        Obj.get (setFive entry fl) "lng" = some fl.2.1 ∧
        Obj.get (setFive entry fl) "google_rating" = some fl.2.2.1 ∧
        Obj.get (setFive entry fl) "google_reviews" = some fl.2.2.2.1 ∧
        Obj.get (setFive entry fl) "place_id" = some fl.2.2.2.2 ∧
        (∀ k, k ≠ "lat" → k ≠ "lng" → k ≠ "google_rating" → k ≠ "google_reviews" →
          k ≠ "place_id" → Obj.get (setFive entry fl) k = Obj.get entry k))
  ∧ (∀ (total i : Nat) (st : GState) (name : String) (d : Json),
        classify d = RespClass.nohit →
        (googleStep total i st name (Except.ok d)).hits = st.hits ∧
        (googleStep total i st name (Except.ok d)).errors = st.errors ∧
        (googleStep total i st name (Except.ok d)).lookup = st.lookup)
  ∧ ((googleRun (fun _ => Except.ok carboneResp) carboneStore).hits = 1 ∧
     (googleRun (fun _ => Except.ok carboneResp) carboneStore).errors = 0 ∧
     (googleRun (fun _ => Except.ok carboneResp) carboneStore).lookup
       = [("Carbone",
           [("url", Json.str "https://opentable.com/carbone"),
            ("lat", Json.num (mkRat 407 10)), ("lng", Json.num (mkRat (-740) 10)),
            ("google_rating", Json.num (mkRat 24 5)), ("google_reviews", Json.num 500),
            ("place_id", Json.str "abc123")])]) := by
  refine ⟨?_, ?_, ?_, ?_, by decide, by decide, rfl⟩
  · intro kvs c cs h
    simp [classify, h]
  · intro total i st name d c entry fl hcl hsg hcf
    rw [googleStep_of_hit total i st name (Except.ok d)
          (storeSetEntry st.lookup name (setFive entry fl))
          (googleOutcome_hit st.lookup name d c entry fl hcl hsg hcf)]
    refine ⟨rfl, rfl, storeGet_setEntry_same _ _ _ _ hsg, ?_⟩
    intro other hother
    exact storeGet_setEntry_other _ _ _ _ hother
  · intro entry fl
    exact ⟨setFive_get_lat entry fl, setFive_get_lng entry fl,
           setFive_get_rating entry fl, setFive_get_reviews entry fl,
           setFive_get_place_id entry fl,
           fun k h1 h2 h3 h4 h5 => setFive_get_other entry fl k h1 h2 h3 h4 h5⟩
  · intro total i st name d hcl
    rw [googleStep_of_nohit total i st name (Except.ok d)
          (googleOutcome_nohit st.lookup name d hcl)]
    exact ⟨rfl, rfl, rfl⟩

/-- Witness for C3: the hit branch applied to the Carbone store and
response in one step. -/
theorem C3_hit_branch_witness :
    (googleStep 1 0 (initG carboneStore) "Carbone" (Except.ok carboneResp)).hits = 1 :=
  (C3_hit_branch.2.1 1 0 (initG carboneStore) "Carbone" carboneResp
    (Json.obj [("geometry", Json.obj [("location",
        Json.obj [("lat", Json.num (mkRat 407 10)), ("lng", Json.num (mkRat (-740) 10))])]),
      ("rating", Json.num (mkRat 24 5)), ("user_ratings_total", Json.num 500),
      ("place_id", Json.str "abc123")])
    [("url", Json.str "https://opentable.com/carbone")]
    (Json.num (mkRat 407 10), Json.num (mkRat (-740) 10), Json.num (mkRat 24 5),
      Json.num 500, Json.str "abc123")
    rfl rfl rfl).1

/-- C4: any exception raised by fetch or during response processing
increments the error counter by exactly one, leaves the hit counter and
the whole record store unchanged, and the loop consumes each candidate
exactly once before moving to the next (no retry). -/
theorem C4_exception_handling :
    (∀ (total i : Nat) (st : GState) (name : String) (res : Except String Json)
        (m : String), googleOutcome st.lookup name res = Except.error m →
        (googleStep total i st name res).errors = st.errors + 1 ∧
        (googleStep total i st name res).hits = st.hits ∧
        (googleStep total i st name res).lookup = st.lookup)
  ∧ (∀ (lookup : Store) (name msg : String),
        googleOutcome lookup name (Except.error msg) = Except.error msg)
  ∧ (∀ (total i : Nat) (st : IState) (r : IEntry) (msg : String),
        (instaStep total i st r (Except.error msg)).errors = st.errors + 1 ∧
        (instaStep total i st r (Except.error msg)).hits = st.hits)
  ∧ (∀ (fetch : String → Except String Json) (total i : Nat) (st : GState)
        (name : String) (rest : List String),
        runG fetch total i st (name :: rest)
          = runG fetch total (i + 1) (googleStep total i st name (fetch name)) rest)
  ∧ (∀ (fetch : IEntry → Except String String) (total i : Nat) (st : IState)
        (r : IEntry) (rest : List IEntry),
        runI fetch total i st (r :: rest)
          = runI fetch total (i + 1) (instaStep total i st r (fetch r)) rest) := by
  refine ⟨?_, fun _ _ _ => rfl, ?_, fun _ _ _ _ _ _ => rfl, fun _ _ _ _ _ _ => rfl⟩
  · intro total i st name res m h
    rw [googleStep_of_error total i st name res m h]
    exact ⟨rfl, rfl, rfl⟩
  · intro total i st r msg
    simp [instaStep]

/-- Witness for C4: a fetch timeout on a singleton store. -/
theorem C4_exception_handling_witness :
    (googleStep 1 0 (initG carboneStore) "Carbone" (Except.error "timeout")).errors = 1 ∧
    (googleStep 1 0 (initG carboneStore) "Carbone" (Except.error "timeout")).hits = 0 ∧
    (googleStep 1 0 (initG carboneStore) "Carbone" (Except.error "timeout")).lookup
      = carboneStore :=
  C4_exception_handling.1 1 0 (initG carboneStore) "Carbone" (Except.error "timeout")
    "timeout" rfl

/-! ### Counter conservation -/

theorem googleStep_counts (total i : Nat) (st : GState) (name : String)
    (res : Except String Json) :
    (googleStep total i st name res).hits + (googleStep total i st name res).errors
      ≤ st.hits + st.errors + 1 := by
  rcases h : googleOutcome st.lookup name res with m | o
  · rw [googleStep_of_error total i st name res m h]
    show st.hits + (st.errors + 1) ≤ st.hits + st.errors + 1
    omega
  · rcases o with _ | lk
    · rw [googleStep_of_nohit total i st name res h]
      show st.hits + st.errors ≤ st.hits + st.errors + 1
      omega
    · rw [googleStep_of_hit total i st name res lk h]
      show st.hits + 1 + st.errors ≤ st.hits + st.errors + 1
      omega

theorem runG_counts (names : List String) (fetch : String → Except String Json)
    (total : Nat) : ∀ (i : Nat) (st : GState),
    (runG fetch total i st names).hits + (runG fetch total i st names).errors
      ≤ st.hits + st.errors + names.length := by
  induction names with
  | nil => intro i st; simp [runG]
  | cons name rest ih =>
    intro i st
    have h1 := googleStep_counts total i st name (fetch name)
    have h2 := ih (i + 1) (googleStep total i st name (fetch name))
    simp only [runG, List.length_cons]
    omega

theorem instaStep_counts (total i : Nat) (st : IState) (r : IEntry)
    (res : Except String String) :
    (instaStep total i st r res).hits.length + (instaStep total i st r res).errors
      ≤ st.hits.length + st.errors + 1 := by
  rcases res with m | html
  · simp only [instaStep]
    show st.hits.length + (st.errors + 1) ≤ st.hits.length + st.errors + 1
    omega
  · simp only [instaStep]
    by_cases hig : extract_ig html = ""
    · simp [hig]
    · simp only [hig, if_neg hig]
      show (st.hits ++ [(r.name, extract_ig html)]).length + st.errors
        ≤ st.hits.length + st.errors + 1
      simp
      omega

theorem runI_counts (names : List IEntry) (fetch : IEntry → Except String String)
    (total : Nat) : ∀ (i : Nat) (st : IState),
    (runI fetch total i st names).hits.length + (runI fetch total i st names).errors
      ≤ st.hits.length + st.errors + names.length := by
  induction names with
  | nil => intro i st; simp [runI]
  | cons r rest ih =>
    intro i st
    have h1 := instaStep_counts total i st r (fetch r)
    have h2 := ih (i + 1) (instaStep total i st r (fetch r))
    simp only [runI, List.length_cons]
    omega

/-- C5: after any run of either variant every candidate ended in exactly
one of hit / no-hit / error: hits plus errors never exceed the number of
candidates, and hits + (candidates - hits - errors) + errors equals the
candidate count. -/
theorem C5_counter_conservation (fetchG : String → Except String Json)
    (lookupG : Store) (fetchI : IEntry → Except String String) (lookupI : Store) :
    ((googleRun fetchG lookupG).hits + (googleRun fetchG lookupG).errors
        ≤ (otEntriesGoogle lookupG).length)
  ∧ ((googleRun fetchG lookupG).hits
      + ((otEntriesGoogle lookupG).length - (googleRun fetchG lookupG).hits
          - (googleRun fetchG lookupG).errors)
      + (googleRun fetchG lookupG).errors = (otEntriesGoogle lookupG).length)
  ∧ ((instaRun fetchI lookupI).hits.length + (instaRun fetchI lookupI).errors
        ≤ (otEntriesInsta lookupI).length)
  ∧ ((instaRun fetchI lookupI).hits.length
      + ((otEntriesInsta lookupI).length - (instaRun fetchI lookupI).hits.length
          - (instaRun fetchI lookupI).errors)
      + (instaRun fetchI lookupI).errors = (otEntriesInsta lookupI).length) := by
  have hg := runG_counts (otEntriesGoogle lookupG) fetchG
    (otEntriesGoogle lookupG).length 0 (initG lookupG)
  have hi := runI_counts (otEntriesInsta lookupI) fetchI
    (otEntriesInsta lookupI).length 0 initI
  have e1 : (initG lookupG).hits = 0 := rfl
  have e2 : (initG lookupG).errors = 0 := rfl
  have e3 : (initI).hits.length = 0 := rfl
  have e4 : (initI).errors = 0 := rfl
  unfold googleRun instaRun
  omega

/-! ### Persistence -/

/-- C7: the scrape variant's only write targets the distinct results file
(never the record-store file it read), while the API variant's only write
overwrites its own input file with the full mutated store; each variant
writes exactly once, at job end, with `indent=2`. -/
theorem C7_persistence (fetchG : String → Except String Json) (lookupG : Store)
    (fetchI : IEntry → Except String String) (lookupI : Store) :
    instaJobWrites fetchI lookupI
      = [FileWrite.listDump instaResultsPath (instaRun fetchI lookupI).hits 2]
  ∧ ((instaJobWrites fetchI lookupI).all
      (fun w => !(w.path == instaStorePath))) = true
  ∧ instaResultsPath ≠ instaStorePath
  ∧ googleJobWrites fetchG lookupG
      = [FileWrite.storeDump googleStorePath (googleRun fetchG lookupG).lookup 2]
  ∧ googleStorePath = "bfull.json"
  ∧ instaStorePath = "booking_lookup_full.json"
  ∧ (instaJobWrites fetchI lookupI).length = 1
  ∧ (googleJobWrites fetchG lookupG).length = 1 := by
  refine ⟨rfl, ?_, by decide, rfl, rfl, rfl, rfl, rfl⟩
  simp [instaJobWrites, FileWrite.path, instaResultsPath, instaStorePath]

/-! ### Missing sub-fields in a hit (C10) -/

/-- A response with a non-empty candidates array whose only candidate is
an empty object (no geometry, rating, or identifier). -/
def emptyCandResp : Json := Json.obj [("candidates", Json.arr [Json.obj []])]

/-- C10: a non-empty candidates array counts as a hit even when the first
candidate lacks every sub-field; the missing values are written as null,
the record's `lat` stays falsy, and the record is selected as a candidate
again on a subsequent run. -/
theorem C10_null_subfields :
    classify emptyCandResp = RespClass.hit (Json.obj [])
  ∧ candFields (Json.obj [])
      = Except.ok (Json.null, Json.null, Json.null, Json.null, Json.null)
  ∧ (googleRun (fun _ => Except.ok emptyCandResp) carboneStore).hits = 1
  ∧ (googleRun (fun _ => Except.ok emptyCandResp) carboneStore).errors = 0
  ∧ storeGet (googleRun (fun _ => Except.ok emptyCandResp) carboneStore).lookup "Carbone"
      = some [("url", Json.str "https://opentable.com/carbone"),
              ("lat", Json.null), ("lng", Json.null), ("google_rating", Json.null),
              ("google_reviews", Json.null), ("place_id", Json.null)]
  ∧ Json.null.truthy = false
  ∧ otEntriesGoogle (googleRun (fun _ => Except.ok emptyCandResp) carboneStore).lookup
      = ["Carbone"] :=
  ⟨rfl, rfl, rfl, rfl, rfl, rfl, by decide⟩

/-! ### Progress printing (C8) -/

theorem string_append_empty (s : String) : s ++ "" = s := by
  cases s with
  | mk data => show String.mk (data ++ []) = String.mk data; simp

/-- The candidate record used in the progress-printing statements. -/
def c8Entry : IEntry :=
  { name := "Cafe X", url := "https://www.opentable.com/cafex", slug := "cafex" }

/-- C8 counterexample: in the scrape variant, a successful hit at 1-based
index 100 prints only the immediate `IG:` line — no progress line showing
the error counter is printed, so the claim's "a progress line showing
index, total, hits, and errors is printed every 100th candidate
regardless of outcome" fails on the scrape variant. -/
theorem C8_counterexample :
    (instaStep 100 99 initI c8Entry (Except.ok "instagram.com/cafex")).out
      = ["[100/100] IG: Cafe X -> @cafex"]
  ∧ ((instaStep 100 99 initI c8Entry (Except.ok "instagram.com/cafex")).out.all
      (fun l => !(strContains l "errors"))) = true :=
  ⟨by decide, by decide⟩

/-- C8 (amended): the API variant prints a progress line with index,
total, hits, errors at every index divisible by 50 in all three outcome
branches (with the exception message appended in the error branch); the
scrape variant prints the immediate `IG:` line on every hit (and nothing
else, even at indices divisible by 100), a line with index, total and hit
count only at every 100th no-hit, and a line with index, total, hits and
errors at every 100th error. -/
theorem C8_progress_printing :
    (∀ (total i : Nat) (st : GState) (name : String) (res : Except String Json)
        (m : String), googleOutcome st.lookup name res = Except.error m →
        (googleStep total i st name res).out = st.out ++
          (if (i + 1) % 50 = 0 then
            [googleProgLine (i + 1) total st.hits (st.errors + 1) ++ " - " ++ m]
           else []))
  ∧ (∀ (total i : Nat) (st : GState) (name : String) (res : Except String Json),
        googleOutcome st.lookup name res = Except.ok none →
        (googleStep total i st name res).out = st.out ++
          (if (i + 1) % 50 = 0 then
            [googleProgLine (i + 1) total st.hits st.errors] else []))
  ∧ (∀ (total i : Nat) (st : GState) (name : String) (res : Except String Json)
        (lk : Store), googleOutcome st.lookup name res = Except.ok (some lk) →
        (googleStep total i st name res).out = st.out ++
          (if (i + 1) % 50 = 0 then
            [googleProgLine (i + 1) total (st.hits + 1) st.errors] else []))
  ∧ (∀ (total i : Nat) (st : IState) (r : IEntry) (m : String),
        (instaStep total i st r (Except.error m)).out = st.out ++
          (if (i + 1) % 100 = 0 then
            [instaErrLine (i + 1) total st.hits.length (st.errors + 1)] else []))
  ∧ (∀ (total i : Nat) (st : IState) (r : IEntry) (html : String),
        extract_ig html = "" →
        (instaStep total i st r (Except.ok html)).out = st.out ++
          (if (i + 1) % 100 = 0 then
            [instaSoFarLine (i + 1) total st.hits.length] else []))
  ∧ (∀ (total i : Nat) (st : IState) (r : IEntry) (html : String),
        extract_ig html ≠ "" →
        (instaStep total i st r (Except.ok html)).out
          = st.out ++ [igLine (i + 1) total r.name (extract_ig html)]) := by
  refine ⟨?_, ?_, ?_, ?_, ?_, ?_⟩
  · intro total i st name res m h
    rw [googleStep_of_error total i st name res m h]
    show st.out ++ progIfG (i + 1) total st.hits (st.errors + 1) (some m) = _
    by_cases h50 : (i + 1) % 50 = 0 <;>
      simp [progIfG, h50, String.append_assoc]
  · intro total i st name res h
    rw [googleStep_of_nohit total i st name res h]
    show st.out ++ progIfG (i + 1) total st.hits st.errors none = _
    by_cases h50 : (i + 1) % 50 = 0 <;>
      simp [progIfG, h50, string_append_empty]
  · intro total i st name res lk h
    rw [googleStep_of_hit total i st name res lk h]
    show st.out ++ progIfG (i + 1) total (st.hits + 1) st.errors none = _
    by_cases h50 : (i + 1) % 50 = 0 <;>
      simp [progIfG, h50, string_append_empty]
  · intro total i st r m
    simp [instaStep]
  · intro total i st r html hig
    simp [instaStep, hig]
  · intro total i st r html hig
    simp [instaStep, hig]

/-- Witness for the amended C8: the immediate `IG:` line of a concrete
scrape hit. -/
theorem C8_progress_printing_witness :
    (instaStep 7 0 initI c8Entry (Except.ok "follow us at instagram.com/cafex")).out
      = initI.out ++ [igLine 1 7 c8Entry.name
          (extract_ig "follow us at instagram.com/cafex")] :=
  C8_progress_printing.2.2.2.2.2 7 0 initI c8Entry
    "follow us at instagram.com/cafex" (by decide)

/-! ### Idempotence of the API variant (C6) -/

theorem googleOutcome_some_inv (lookup : Store) (name : String)
    (res : Except String Json) (lk : Store)
    (h : googleOutcome lookup name res = Except.ok (some lk)) :
    ∃ entry fl, storeGet lookup name = some entry ∧
      lk = storeSetEntry lookup name (setFive entry fl) := by
  rcases res with m | d
  · simp [googleOutcome] at h
  · simp only [googleOutcome, processResp] at h
    rcases hcl : classify d with c | _ | _
    · simp only [hcl] at h
      rcases hsg : storeGet lookup name with _ | entry
      · simp [hsg] at h
      · simp only [hsg] at h
        rcases hcf : candFields c with m | fl
        · simp [hcf] at h
        · simp only [hcf, Except.ok.injEq, Option.some.injEq] at h
          exact ⟨entry, fl, rfl, h.symm⟩
    · simp [hcl] at h
    · simp [hcl] at h

theorem googleStep_keys (total i : Nat) (st : GState) (name : String)
    (res : Except String Json) :
    (googleStep total i st name res).lookup.map Prod.fst
      = st.lookup.map Prod.fst := by
  rcases h : googleOutcome st.lookup name res with m | o
  · rw [googleStep_of_error total i st name res m h]
  · rcases o with _ | lk
    · rw [googleStep_of_nohit total i st name res h]
    · rw [googleStep_of_hit total i st name res lk h]
      obtain ⟨entry, fl, _, hlk⟩ := googleOutcome_some_inv st.lookup name res lk h
      show lk.map Prod.fst = st.lookup.map Prod.fst
      rw [hlk, storeSetEntry_keys]

theorem runG_keys (fetch : String → Except String Json) (total : Nat)
    (names : List String) : ∀ (i : Nat) (st : GState),
    (runG fetch total i st names).lookup.map Prod.fst = st.lookup.map Prod.fst := by
  induction names with
  | nil => intro i st; rfl
  | cons name rest ih =>
    intro i st
    simp only [runG]
    rw [ih (i + 1) (googleStep total i st name (fetch name)),
        googleStep_keys total i st name (fetch name)]

/-- Effect of an `ot_google.py` run whose fetch always returns the same
fixed hit response: every candidate's record is mapped through `setFive`,
every other record is untouched. -/
theorem runG_const_hit_lookup (resp c : Json)
    (fl : Json × Json × Json × Json × Json)
    (hcl : classify resp = RespClass.hit c) (hcf : candFields c = Except.ok fl)
    (names : List String) : ∀ (total i : Nat) (st : GState), names.Nodup →
    ∀ k, storeGet (runG (fun _ => Except.ok resp) total i st names).lookup k
      = if k ∈ names then Option.map (fun e => setFive e fl) (storeGet st.lookup k)
        else storeGet st.lookup k := by
  induction names with
  | nil => intro total i st _ k; simp [runG]
  | cons name rest ih =>
    intro total i st hnd k
    rcases List.nodup_cons.1 hnd with ⟨hnmem, hndrest⟩
    simp only [runG]
    rcases hsg : storeGet st.lookup name with _ | entry
    · have hout : googleOutcome st.lookup name (Except.ok resp)
          = Except.error "KeyError" := by
        simp [googleOutcome, processResp, hcl, hsg]
      rw [googleStep_of_error total i st name _ _ hout]
      rw [ih total (i + 1) _ hndrest k]
      dsimp only
      by_cases hk : k = name
      · subst hk
        simp [List.mem_cons, hnmem, hsg]
      · simp [List.mem_cons, hk]
    · have hout := googleOutcome_hit st.lookup name resp c entry fl hcl hsg hcf
      rw [googleStep_of_hit total i st name _ _ hout]
      rw [ih total (i + 1) _ hndrest k]
      dsimp only
      by_cases hk : k = name
      · subst hk
        have hnotrest : k ∉ rest := hnmem
        simp only [List.mem_cons, true_or, if_pos (Or.inl rfl), if_neg hnotrest, hsg]
        rw [storeGet_setEntry_same st.lookup k (setFive entry fl) entry hsg]
        rfl
      · rw [storeGet_setEntry_other st.lookup name k (setFive entry fl) hk]
        simp [List.mem_cons, hk]

/-- After one constant-hit run writing a truthy `lat`, no record passes
the filter any more. -/
theorem googleRun_const_hit_filter_empty (lookup0 : Store) (resp c : Json)
    (fl : Json × Json × Json × Json × Json)
    (hnd : (lookup0.map Prod.fst).Nodup)
    (hcl : classify resp = RespClass.hit c) (hcf : candFields c = Except.ok fl)
    (hlat : fl.1.truthy = true) :
    otEntriesGoogle (googleRun (fun _ => Except.ok resp) lookup0).lookup = [] := by
  have hkeys : (googleRun (fun _ => Except.ok resp) lookup0).lookup.map Prod.fst
      = lookup0.map Prod.fst :=
    runG_keys (fun _ => Except.ok resp) (otEntriesGoogle lookup0).length
      (otEntriesGoogle lookup0) 0 (initG lookup0)
  have hnd1 : ((googleRun (fun _ => Except.ok resp) lookup0).lookup.map Prod.fst).Nodup := by
    rw [hkeys]; exact hnd
  have hnames : (otEntriesGoogle lookup0).Nodup :=
    ((List.filter_sublist lookup0).map Prod.fst).nodup hnd
  have hrec := runG_const_hit_lookup resp c fl hcl hcf (otEntriesGoogle lookup0)
    (otEntriesGoogle lookup0).length 0 (initG lookup0) hnames
  rw [otEntriesGoogle, List.map_eq_nil_iff, List.filter_eq_nil_iff]
  intro p hp
  obtain ⟨k, e⟩ := p
  have hsome : storeGet (googleRun (fun _ => Except.ok resp) lookup0).lookup k = some e :=
    mem_storeGet _ k e hnd1 hp
  rw [googleRun] at hsome
  rw [hrec k] at hsome
  by_cases hk : k ∈ otEntriesGoogle lookup0
  · rw [if_pos hk] at hsome
    rcases hsg : storeGet (initG lookup0).lookup k with _ | e0 <;> rw [hsg] at hsome
    · exact absurd hsome (by simp)
    · simp only [Option.map_some', Option.some.injEq] at hsome
      subst hsome
      have hgetlat : Obj.getD (setFive e0 fl) "lat" Json.null = fl.1 := by
        rw [Obj.getD, setFive_get_lat]
      simp only [googlePred, hgetlat, hlat]
      simp
  · rw [if_neg hk] at hsome
    have hmem0 : (k, e) ∈ lookup0 := storeGet_mem _ k e hsome
    have hiff := mem_filtered_keys googlePred lookup0 hnd k e hmem0
    by_contra hcon
    simp only [Bool.not_eq_false] at hcon
    exact hk ((hiff.mpr hcon))

/-- C6: with a fetch stub that always returns the same fixed match whose
`lat` value is truthy, a first run populates every candidate, the second
run's candidate set is empty (nothing is re-fetched), and the second run
leaves the record store — in particular every record populated by the
first run — identical. -/
theorem C6_idempotence (lookup0 : Store) (resp c : Json)
    (fl : Json × Json × Json × Json × Json)
    (hnd : (lookup0.map Prod.fst).Nodup)
    (hcl : classify resp = RespClass.hit c)
    (hcf : candFields c = Except.ok fl)
    (hlat : fl.1.truthy = true) :
    otEntriesGoogle (googleRun (fun _ => Except.ok resp) lookup0).lookup = []
  ∧ (googleRun (fun _ => Except.ok resp)
      (googleRun (fun _ => Except.ok resp) lookup0).lookup).lookup
    = (googleRun (fun _ => Except.ok resp) lookup0).lookup := by
  have hempty := googleRun_const_hit_filter_empty lookup0 resp c fl hnd hcl hcf hlat
  refine ⟨hempty, ?_⟩
  rw [googleRun, hempty]
  rfl

/-- Witness for C6 at the Carbone scenario: one record, fixed stubbed
response with truthy lat. -/
theorem C6_idempotence_witness :
    otEntriesGoogle (googleRun (fun _ => Except.ok carboneResp) carboneStore).lookup = []
  ∧ (googleRun (fun _ => Except.ok carboneResp)
      (googleRun (fun _ => Except.ok carboneResp) carboneStore).lookup).lookup
    = (googleRun (fun _ => Except.ok carboneResp) carboneStore).lookup :=
  C6_idempotence carboneStore carboneResp
    (Json.obj [("geometry", Json.obj [("location",
        Json.obj [("lat", Json.num (mkRat 407 10)), ("lng", Json.num (mkRat (-740) 10))])]),
      ("rating", Json.num (mkRat 24 5)), ("user_ratings_total", Json.num 500),
      ("place_id", Json.str "abc123")])
    (Json.num (mkRat 407 10), Json.num (mkRat (-740) 10), Json.num (mkRat 24 5),
      Json.num 500, Json.str "abc123")
    (by decide) rfl rfl (by decide)

end OTEnrich
